import Mathlib

/-!
Verification development for the LifeLinkNepal donor-matching engine.

The definitions below are a shallow embedding of the Python source:

* `src/algorithms/blood_compatibility.py` - the compatibility table.
* `src/algorithms/eligibility.py`        - the eligibility predicate.
* `src/algorithms/priority.py`           - the request-priority ranker.
* `src/algorithms/mcdm.py`               - the TOPSIS donor ranker.
* `src/donors/models.py`, `src/donors/tasks.py`, `src/donors/views.py`,
  `src/hospitals/signals.py`             - the notification cascade.

Numeric values are modelled over the rationals.  The two
transcendental primitives of the source (the haversine distance of
`src/algorithms/haversine.py`, and `np.sqrt` inside the TOPSIS
ranker) have no exact rational embedding; each is passed as an
explicit function parameter (`hav`, `sqrtF`), and every theorem
quantifies over it, so the theorems hold for every possible value of
those primitives.  Dates are modelled as integer day numbers and
timestamps as integers; `today` and `now` are explicit parameters
standing for the ambient clock reads of the source.
-/

/-- The eight ABO/Rh blood types (choice lists of
`donors/models.py` and `hospitals/models.py`). -/
inductive BloodType
  | Apos | Aneg | Bpos | Bneg | Opos | Oneg | ABpos | ABneg
deriving DecidableEq, Repr

/-- The `COMPATIBILITY` table of `src/algorithms/blood_compatibility.py`:
for each donor type, the list of recipient types it may donate to. -/
def compatibleRecipientsOf : BloodType → List BloodType
  | .Oneg  => [.Oneg, .Opos, .Aneg, .Apos, .Bneg, .Bpos, .ABneg, .ABpos]
  | .Opos  => [.Opos, .Apos, .Bpos, .ABpos]
  | .Aneg  => [.Aneg, .Apos, .ABneg, .ABpos]
  | .Apos  => [.Apos, .ABpos]
  | .Bneg  => [.Bneg, .Bpos, .ABneg, .ABpos]
  | .Bpos  => [.Bpos, .ABpos]
  | .ABneg => [.ABneg, .ABpos]
  | .ABpos => [.ABpos]

/-- `is_compatible` of `src/algorithms/blood_compatibility.py`:
true iff the recipient type is in the donor type row of the table.
(The `not in COMPATIBILITY` guard of the source concerns strings
outside the eight types and is subsumed by the total match.) -/
def is_compatible (donor recipient : BloodType) : Bool :=
  recipient ∈ compatibleRecipientsOf donor

/-- Python truthiness of an optional float coordinate as used in the
guard `donor.latitude and donor.longitude and ...` of
`src/algorithms/eligibility.py`: `None` and `0.0` are both falsy. -/
def truthy (x : Option ℚ) : Bool :=
  x.getD 0 ≠ 0

/-- The cooldown test of `src/algorithms/eligibility.py` line 38:
with a recorded last-donation date, the donor is blocked when fewer
than `DONATION_COOLDOWN_DAYS = 90` days have elapsed. -/
def cooldownBlocked (today : ℤ) : Option ℤ → Bool
  | none => false
  | some last => today - last < 90

/-- Rounding to two decimals, `round(distance, 2)` of the source.
No claim depends on the value of this annotation, only on whether it
is set. -/
def roundQ2 (q : ℚ) : ℚ :=
  (round (100 * q) : ℤ) / 100

/-- Donor fields read by `is_donor_eligible`
(`src/algorithms/eligibility.py`). -/
structure EDonor where
  isAvailable : Bool
  lastDonationDate : Option ℤ
  bloodType : BloodType
  latitude : Option ℚ
  longitude : Option ℚ
deriving DecidableEq, Repr

/-- Hospital coordinates read through
`blood_request.hospital.latitude / longitude`. -/
structure EHospital where
  latitude : Option ℚ
  longitude : Option ℚ
deriving DecidableEq, Repr

/-- Request fields read by `is_donor_eligible`. -/
structure ERequest where
  bloodType : BloodType
  hospital : EHospital
deriving DecidableEq, Repr

/-- `is_donor_eligible` of `src/algorithms/eligibility.py`.

Parameters standing for ambient context of the source:
`hav` is `haversine_distance` (transcendental, hence abstracted);
`hasDeclined` is the database lookup
`DonorResponse.objects.filter(..., status=declined).exists()`;
`today` is `date.today()`.

The result pairs the boolean with the `donor.distance` side
annotation: `none` when the function returned early without touching
it, `some none` when it was set to `None` (unknown location),
`some (some d)` when it was set to the rounded distance. -/
def is_donor_eligible (hav : ℚ → ℚ → ℚ → ℚ → ℚ) (hasDeclined : Bool)
    (today : ℤ) (donor : EDonor) (req : ERequest) (maxDistance : ℚ) :
    Bool × Option (Option ℚ) :=
  if !donor.isAvailable then (false, none)
  else if cooldownBlocked today donor.lastDonationDate then (false, none)
  else if !is_compatible donor.bloodType req.bloodType then (false, none)
  else if hasDeclined then (false, none)
  else if truthy donor.latitude && truthy donor.longitude &&
          truthy req.hospital.latitude && truthy req.hospital.longitude then
    let distance := hav (donor.latitude.getD 0) (donor.longitude.getD 0)
      (req.hospital.latitude.getD 0) (req.hospital.longitude.getD 0)
    if distance > maxDistance then (false, none)
    else (true, some (some (roundQ2 distance)))
  else (true, some none)

/-- The three intake urgency tiers (`URGENCY_CHOICES` of
`hospitals/models.py`). -/
inductive Urgency
  | critical | urgent | normal
deriving DecidableEq, Repr

/-- `calculate_urgency_score` of `src/algorithms/priority.py`
(the `.get(..., 40)` default concerns strings outside the choice
list and is subsumed by the total match). -/
def calculate_urgency_score : Urgency → ℚ
  | .critical => 100
  | .urgent => 70
  | .normal => 40

/-- `calculate_time_score` of `src/algorithms/priority.py`,
expressed on the hours waited (`(now - created_at)` in hours; the
timezone coercion of the source is identity in this model). -/
def calculate_time_score (hoursWaiting : ℚ) : ℚ :=
  if hoursWaiting ≥ 24 then 100
  else if hoursWaiting ≥ 12 then 80
  else if hoursWaiting ≥ 6 then 60
  else if hoursWaiting ≥ 3 then 40
  else if hoursWaiting ≥ 1 then 20
  else 0

/-- `calculate_units_score` of `src/algorithms/priority.py`. -/
def calculate_units_score (unitsNeeded : ℤ) : ℚ :=
  if unitsNeeded ≥ 5 then 100
  else if unitsNeeded ≥ 4 then 80
  else if unitsNeeded ≥ 3 then 60
  else if unitsNeeded ≥ 2 then 40
  else 20

/-- `calculate_blood_rarity_score` of `src/algorithms/priority.py`. -/
def calculate_blood_rarity_score : BloodType → ℚ
  | .ABneg => 100
  | .Bneg => 90
  | .ABpos => 80
  | .Aneg => 70
  | .Oneg => 60
  | .Bpos => 50
  | .Apos => 40
  | .Opos => 30

/-- Request fields read by `run_priority_algorithm`. `createdAt` is
the creation timestamp in hours. -/
structure PRequest where
  urgency : Urgency
  createdAt : ℚ
  unitsNeeded : ℤ
  bloodType : BloodType
deriving DecidableEq, Repr

/-- The weighted composite of `run_priority_algorithm`
(`src/algorithms/priority.py` lines 25-30), before rounding. -/
def compositeScore (r : PRequest) (now : ℚ) : ℚ :=
  calculate_urgency_score r.urgency * (40 / 100) +
  calculate_time_score (now - r.createdAt) * (30 / 100) +
  calculate_units_score r.unitsNeeded * (20 / 100) +
  calculate_blood_rarity_score r.bloodType * (10 / 100)

/-- `round(priority_score, 1)` of the source.  Every reachable
composite is an exact multiple of one tenth (all sub-scores are
integers and the weights are tenths), so the rounding convention at
half-way points never matters. -/
def round1 (q : ℚ) : ℚ :=
  (round (10 * q) : ℤ) / 10

/-- The rounded composite priority score reported and sorted on by
`run_priority_algorithm`. -/
def priorityScoreOf (r : PRequest) (now : ℚ) : ℚ :=
  round1 (compositeScore r now)

/-- The display bucket of `run_priority_algorithm` lines 33-40. -/
def priorityLevelOf (score : ℚ) : String :=
  if score ≥ 80 then "critical"
  else if score ≥ 60 then "high"
  else if score ≥ 40 then "medium"
  else "low"

/-- `run_priority_algorithm` of `src/algorithms/priority.py`:
score every request and stable-sort descending by the rounded
composite score. -/
def run_priority_algorithm (requests : List PRequest) (now : ℚ) :
    List (PRequest × ℚ × String) :=
  let scored := requests.map fun r =>
    (r, priorityScoreOf r now, priorityLevelOf (priorityScoreOf r now))
  scored.insertionSort (fun a b => b.2.1 ≤ a.2.1)

/-- Donor fields read by `rank_donors_mcdm`
(`src/algorithms/mcdm.py`). -/
structure MDonor where
  id : ℕ
  bloodType : BloodType
  donationCount : ℕ
  lastDonationDate : Option ℤ
deriving DecidableEq, Repr

/-- One row of the TOPSIS criteria matrix: distance, compatibility
grade, donation count, capped recency. -/
structure Crit where
  dist : ℚ
  compat : ℚ
  dons : ℚ
  recency : ℚ
deriving DecidableEq, Repr

/-- `get_blood_compatibility_score` of `src/algorithms/mcdm.py`:
10 for an exact match, 8 for compatible-but-different, 0 otherwise
(translated entry for entry from the nested dictionary). -/
def get_blood_compatibility_score (donor required : BloodType) : ℚ :=
  if donor = required then 10
  else if is_compatible donor required then 8
  else 0

/-- Days since last donation, capped at 90; a donor who never
donated gets 90 (`src/algorithms/mcdm.py` lines 39-43). -/
def daysSinceCap (today : ℤ) : Option ℤ → ℚ
  | none => 90
  | some last => ((min (today - last) 90 : ℤ) : ℚ)

/-- One criteria-matrix row (`src/algorithms/mcdm.py` lines 28-50).
A donor missing from the `distances` map defaults to 50 km. -/
def critRow (today : ℤ) (distances : ℕ → Option ℚ) (required : BloodType)
    (d : MDonor) : Crit :=
  { dist := (distances d.id).getD 50
    compat := get_blood_compatibility_score d.bloodType required
    dons := d.donationCount
    recency := daysSinceCap today d.lastDonationDate }

/-- Vector normalization of one column value (`normalize_matrix` of
`src/algorithms/mcdm.py`): divide by the root of the sum of squares,
or map to zero when that root is not positive. -/
def normCol (sqrtF : ℚ → ℚ) (col : List ℚ) (x : ℚ) : ℚ :=
  let s := sqrtF (col.map (fun v => v ^ 2)).sum
  if 0 < s then x / s else 0

/-- `normalize_matrix` applied to all four columns. -/
def colNormalize (sqrtF : ℚ → ℚ) (rows : List Crit) : List Crit :=
  rows.map fun r =>
    { dist := normCol sqrtF (rows.map Crit.dist) r.dist
      compat := normCol sqrtF (rows.map Crit.compat) r.compat
      dons := normCol sqrtF (rows.map Crit.dons) r.dons
      recency := normCol sqrtF (rows.map Crit.recency) r.recency }

/-- The fixed criterion weights `[0.3, 0.3, 0.2, 0.2]`. -/
def applyWeights (rows : List Crit) : List Crit :=
  rows.map fun r =>
    { dist := r.dist * (3 / 10)
      compat := r.compat * (3 / 10)
      dons := r.dons * (2 / 10)
      recency := r.recency * (2 / 10) }

/-- Column fold used for the ideal and negative-ideal vectors; an
empty matrix yields the default used by the `if ... else` of the
source (never reached on the list path taken). -/
def foldCol (g : ℚ → ℚ → ℚ) (f : Crit → ℚ) (dflt : ℚ) : List Crit → ℚ
  | [] => dflt
  | r :: rs => rs.foldl (fun m x => g m (f x)) (f r)

/-- The ideal solution (`src/algorithms/mcdm.py` lines 73-78):
minimum of the distance column, maximum of the other three. -/
def idealOf (rows : List Crit) : Crit :=
  { dist := foldCol min Crit.dist 0 rows
    compat := foldCol max Crit.compat 1 rows
    dons := foldCol max Crit.dons 1 rows
    recency := foldCol max Crit.recency 1 rows }

/-- The negative-ideal solution (lines 80-85): the inverse extremes. -/
def negIdealOf (rows : List Crit) : Crit :=
  { dist := foldCol max Crit.dist 1 rows
    compat := foldCol min Crit.compat 0 rows
    dons := foldCol min Crit.dons 0 rows
    recency := foldCol min Crit.recency 0 rows }

/-- Squared Euclidean distance between two criteria rows. -/
def sqDist (a b : Crit) : ℚ :=
  (a.dist - b.dist) ^ 2 + (a.compat - b.compat) ^ 2 +
  (a.dons - b.dons) ^ 2 + (a.recency - b.recency) ^ 2

/-- The TOPSIS closeness score of one weighted row (lines 92-106):
`d- / (d+ + d-)`, defaulting to `0.5` when `d+ + d- = 0`. -/
def topsisScore (sqrtF : ℚ → ℚ) (ideal negIdeal w : Crit) : ℚ :=
  if 0 < sqrtF (sqDist w ideal) + sqrtF (sqDist w negIdeal) then
    sqrtF (sqDist w negIdeal) /
      (sqrtF (sqDist w ideal) + sqrtF (sqDist w negIdeal))
  else 1 / 2

/-- The weighted normalized criteria matrix of the TOPSIS ranker
(lines 52-66 of `src/algorithms/mcdm.py`). -/
def mcdmWeighted (sqrtF : ℚ → ℚ) (today : ℤ) (distances : ℕ → Option ℚ)
    (required : BloodType) (ds : List MDonor) : List Crit :=
  applyWeights (colNormalize sqrtF (ds.map (critRow today distances required)))

/-- The donor/score pairs of the TOPSIS ranker before the final
sort (lines 91-109 of the source). -/
def mcdmScored (sqrtF : ℚ → ℚ) (today : ℤ) (distances : ℕ → Option ℚ)
    (required : BloodType) (ds : List MDonor) : List (MDonor × ℚ) :=
  ds.zip ((mcdmWeighted sqrtF today distances required ds).map
    (topsisScore sqrtF (idealOf (mcdmWeighted sqrtF today distances required ds))
      (negIdealOf (mcdmWeighted sqrtF today distances required ds))))

/-- `rank_donors_mcdm` of `src/algorithms/mcdm.py`.  `sqrtF` stands
for `np.sqrt`; `hLat` and `hLon` are the hospital coordinates, which
the source accepts and never reads; `today` is `datetime.now().date()`.
An empty input returns `[]` and a singleton returns the donor with
score `1.0` before any matrix is built; otherwise the weighted
normalized matrix is scored and the pairs are stable-sorted
descending by score (`ranked.sort(key=..., reverse=True)`). -/
def rank_donors_mcdm (sqrtF : ℚ → ℚ) (today : ℤ) (hLat hLon : ℚ)
    (distances : ℕ → Option ℚ) (required : BloodType)
    (donors : List MDonor) : List (MDonor × ℚ) :=
  match donors with
  | [] => []
  | [d] => [(d, 1)]
  | ds => (mcdmScored sqrtF today distances required ds).insertionSort
      (fun a b => b.2 ≤ a.2)

/-- Candidate lifecycle statuses: the `STATUS_CHOICES` of
`DonorNotification` (`src/donors/models.py`), plus the `fulfilled`
value written by `fulfill_blood_request` (`src/donors/views.py`). -/
inductive NStatus
  | pending | notified | accepted | rejected | cancelled | fulfilled
deriving DecidableEq, Repr

/-- Request lifecycle statuses (`STATUS_CHOICES` of `BloodRequest`,
`src/hospitals/models.py`). -/
inductive RStatus
  | pending | fulfilled | cancelled
deriving DecidableEq, Repr

/-- Donor counters touched by the accept handler
(`src/donors/views.py` lines 290-294).  `historyCount` is the number
of `DonationHistory` rows of the donor. -/
structure DonorStats where
  donationCount : ℕ
  historyCount : ℕ
  lastDonationDate : Option ℤ
  points : ℕ
deriving DecidableEq, Repr

/-- One `DonorNotification` row (`src/donors/models.py`), restricted
to the fields the cascade reads or writes.  `nid` is the primary
key. -/
structure Candidate where
  nid : ℕ
  status : NStatus
  isNotified : Bool
  priorityOrder : ℤ
  notifiedAt : Option ℤ
  respondedAt : Option ℤ
  responded : Bool
  responseNotes : String
  donor : DonorStats
deriving DecidableEq, Repr

/-- A `DonorResponse` row status (`src/donors/models.py`). -/
inductive RespStatus
  | accepted | declined
deriving DecidableEq, Repr

/-- Admin/side notifications emitted by the cascade handlers
(`notify_admin_timeout`, `notify_admin_no_donors` of
`src/donors/tasks.py`; the acceptance and rejection admin mails of
`src/donors/views.py`). -/
inductive AdminAlert
  | timeoutAdvanced | noDonorsEscalation | donorAccepted | donorRejected
deriving DecidableEq, Repr

/-- The per-request state the cascade operates on: the blood request
status, its candidate queue, the count of `DonationHistory` rows
created for it, the `DonorResponse` rows (keyed here by the
candidate id), and the admin notifications issued. -/
structure CascadeState where
  reqStatus : RStatus
  candidates : List Candidate
  donationRecords : ℕ
  responses : List (ℕ × RespStatus)
  adminAlerts : List AdminAlert
deriving DecidableEq, Repr

/-- Outcome messages of the cascade handlers (the return strings of
`src/donors/tasks.py` and the Django messages of
`src/donors/views.py`), as an enumeration. -/
inductive COutcome
  | requestAccepted
  | noDonorsAvailable
  | notifiedDonor (nid : ℕ)
  | alreadyResponded (st : NStatus)
  | timeoutNextNotified (nid : ℕ)
  | timeoutNoMoreDonors
  | statusInfo (st : NStatus)
  | notFound
  | notActive (st : NStatus)
  | acceptedOk
  | rejectedOk
deriving DecidableEq, Repr

/-- `DonorNotification.objects.get(id=...)` on the candidate list. -/
def findCand (nid : ℕ) (cs : List Candidate) : Option Candidate :=
  cs.find? fun c => c.nid = nid

/-- Update every row with the given primary key (at most one row in
a well-formed database). -/
def updateCand (nid : ℕ) (f : Candidate → Candidate)
    (cs : List Candidate) : List Candidate :=
  cs.map fun c => if c.nid = nid then f c else c

/-- Leftmost candidate of minimal `priority_order`. -/
def pickMinPrio (b : Candidate) (l : List Candidate) : Candidate :=
  l.foldl (fun m x => if x.priorityOrder < m.priorityOrder then x else m) b

/-- `donor_notifications.filter(status=pending, is_notified=False)
.order_by(priority_order).first()` of `src/donors/tasks.py`. -/
def nextPendingCand (cs : List Candidate) : Option Candidate :=
  match cs.filter fun c => decide (c.status = .pending) && !c.isNotified with
  | [] => none
  | c :: rest => some (pickMinPrio c rest)

/-- The activation write of the cascade: status `notified`,
`is_notified = True`, `notified_at = now`. -/
def markNotified (now : ℤ) (c : Candidate) : Candidate :=
  { c with status := .notified, isNotified := true, notifiedAt := some now }

/-- `notify_first_donor` of `src/donors/tasks.py` (triggered once
per request by the `post_save` signal of `src/hospitals/signals.py`):
if no candidate has accepted, activate the pending candidate of
lowest `priority_order` not yet notified.  The email send and the
scheduling of the 30-minute timer are side effects outside the
state. -/
def notify_first_donor (s : CascadeState) (now : ℤ) :
    CascadeState × COutcome :=
  if s.candidates.any fun c => decide (c.status = .accepted) then
    (s, .requestAccepted)
  else
    match nextPendingCand s.candidates with
    | none => (s, .noDonorsAvailable)
    | some c =>
      ({ s with candidates := updateCand c.nid (markNotified now) s.candidates },
       .notifiedDonor c.nid)

/-- The auto-cancellation annotation written by the timeout handler. -/
def timeoutNote : String := "No response within 30 minutes - auto-cancelled"

/-- The timeout write on the unresponsive candidate: status
`cancelled` with the timed-out annotation. -/
def cancelTimedOut (nid : ℕ) (cs : List Candidate) : List Candidate :=
  updateCand nid (fun x => { x with status := .cancelled, responseNotes := timeoutNote }) cs

/-- `check_donor_response` of `src/donors/tasks.py`: the 30-minute
timer handler.  If the donor already responded it is a no-op; if the
candidate is still `notified` it is cancelled with the timed-out
annotation and the next pending candidate (lowest `priority_order`,
not yet notified) is activated, or, when none remains, the
no-more-donors admin escalation is issued; any other status is a
no-op with an informational message. -/
def check_donor_response (s : CascadeState) (nid : ℕ) (now : ℤ) :
    CascadeState × COutcome :=
  match findCand nid s.candidates with
  | none => (s, .notFound)
  | some c =>
    if c.status = .accepted ∨ c.status = .rejected then
      (s, .alreadyResponded c.status)
    else if c.status = .notified then
      let cs1 := cancelTimedOut nid s.candidates
      match nextPendingCand cs1 with
      | some n =>
        ({ s with candidates := updateCand n.nid (markNotified now) cs1,
                  adminAlerts := s.adminAlerts ++ [.timeoutAdvanced] },
         .timeoutNextNotified n.nid)
      | none =>
        ({ s with candidates := cs1,
                  adminAlerts := s.adminAlerts ++ [.noDonorsEscalation] },
         .timeoutNoMoreDonors)
    else (s, .statusInfo c.status)

/-- The per-candidate write of the accept handler
(`src/donors/views.py` lines 270-294): status `accepted`, response
recorded, and the donor counters updated - `donation_count` becomes
the new `DonationHistory` count, `last_donation_date` becomes today,
and 50 points are awarded. -/
def acceptWrite (today now : ℤ) (notes : String) (x : Candidate) : Candidate :=
  { x with status := .accepted, respondedAt := some now,
           responseNotes := notes, responded := true,
           donor := { donationCount := x.donor.historyCount + 1,
                      historyCount := x.donor.historyCount + 1,
                      lastDonationDate := some today,
                      points := x.donor.points + 50 } }

/-- The sibling cancellation of the accept handler (step 6 of
`src/donors/views.py`): every other candidate still `pending` or
`notified` becomes `cancelled`. -/
def cancelOthers (nid : ℕ) (cs : List Candidate) : List Candidate :=
  cs.map fun x =>
    if x.nid ≠ nid ∧ (x.status = .pending ∨ x.status = .notified) then
      { x with status := .cancelled }
    else x

/-- `accept_blood_request` of `src/donors/views.py` (the POST
branch; `today` is `date.today()`, `now` is `timezone.now()`).
A candidate not in `notified` state yields a warning message and no
write.  Otherwise: the candidate is accepted, the request becomes
`fulfilled`, one `DonationHistory` row is created, the donor
counters are updated, a `DonorResponse(accepted)` row is created,
and all other `pending`/`notified` siblings are cancelled. -/
def accept_blood_request (s : CascadeState) (nid : ℕ) (today now : ℤ)
    (notes : String) : CascadeState × COutcome :=
  match findCand nid s.candidates with
  | none => (s, .notFound)
  | some c =>
    if c.status ≠ .notified then (s, .notActive c.status)
    else
      ({ reqStatus := .fulfilled,
         candidates := cancelOthers nid (updateCand nid (acceptWrite today now notes) s.candidates),
         donationRecords := s.donationRecords + 1,
         responses := s.responses ++ [(nid, .accepted)],
         adminAlerts := s.adminAlerts ++ [.donorAccepted] },
       .acceptedOk)

/-- `reject_blood_request` of `src/donors/views.py` (the POST
branch).  A candidate not in `notified` state yields a warning
message and no write.  Otherwise the candidate becomes `rejected`, a
`DonorResponse(declined)` row is created and the admin rejection
mail is sent; no other candidate is touched and nothing is
activated. -/
def reject_blood_request (s : CascadeState) (nid : ℕ) (now : ℤ)
    (reason : String) : CascadeState × COutcome :=
  match findCand nid s.candidates with
  | none => (s, .notFound)
  | some c =>
    if c.status ≠ .notified then (s, .notActive c.status)
    else
      ({ s with
         candidates := updateCand nid
           (fun x => { x with status := .rejected, respondedAt := some now,
                              responseNotes := reason, responded := true })
           s.candidates,
         responses := s.responses ++ [(nid, .declined)],
         adminAlerts := s.adminAlerts ++ [.donorRejected] },
       .rejectedOk)

/-- Modelled from the spec: the queue-materialization step that
turns the eligible-and-ranked donor list into `DonorNotification`
rows.  The repository under `src/` contains the `priority_order`
field, its consumers (`src/donors/tasks.py`, `src/hospitals/admin.py`)
and the ranked donor list, but not the code that bulk-creates the
queue rows; following the spec, the full ranked list is materialized
as candidates in `pending` state with a 1-based ascending
`priority_order` (ascending = tried first).  Row ids are the fresh
primary keys the database would assign. -/
def buildCandidateQueue (donors : List DonorStats) : List Candidate :=
  donors.enum.map fun p =>
    { nid := p.1, status := .pending, isNotified := false,
      priorityOrder := (p.1 : ℤ) + 1, notifiedAt := none,
      respondedAt := none, responded := false, responseNotes := "",
      donor := p.2 }

/-- The per-request state right after the request row and its
candidate queue are created (`status=pending`, no donations, no
responses, no alerts). -/
def initState (cs : List Candidate) : CascadeState :=
  { reqStatus := .pending, candidates := cs, donationRecords := 0,
    responses := [], adminAlerts := [] }

/-- States reachable from a freshly created queue by the cascade
operations: the one-shot initial activation (the `post_save` signal
fires `notify_first_donor` once, on creation), and any interleaving
of timeout firings, accepts and rejects with arbitrary candidate
ids, clock values and free-text fields. -/
inductive Reachable (q0 : CascadeState) : CascadeState → Prop
  | start : Reachable q0 q0
  | activate (now : ℤ) : Reachable q0 (notify_first_donor q0 now).1
  | timeout (s : CascadeState) (nid : ℕ) (now : ℤ) :
      Reachable q0 s → Reachable q0 (check_donor_response s nid now).1
  | accept (s : CascadeState) (nid : ℕ) (today now : ℤ) (notes : String) :
      Reachable q0 s → Reachable q0 (accept_blood_request s nid today now notes).1
  | reject (s : CascadeState) (nid : ℕ) (now : ℤ) (reason : String) :
      Reachable q0 s → Reachable q0 (reject_blood_request s nid now reason).1

/-- Number of candidates currently in `notified` state. -/
def notifiedCount (s : CascadeState) : ℕ :=
  s.candidates.countP fun c => decide (c.status = .notified)

lemma updateCand_nil (k : ℕ) (f : Candidate → Candidate) :
    updateCand k f [] = [] := rfl

lemma updateCand_cons (k : ℕ) (f : Candidate → Candidate) (c : Candidate)
    (cs : List Candidate) :
    updateCand k f (c :: cs) =
      (if c.nid = k then f c else c) :: updateCand k f cs := rfl


lemma countP_updateCand_le (p : Candidate → Bool) (k : ℕ)
    (f : Candidate → Candidate) (cs : List Candidate) :
    (updateCand k f cs).countP p ≤
      cs.countP p + cs.countP (fun c => decide (c.nid = k)) := by
  induction cs with
  | nil => simp [updateCand]
  | cons c cs ih =>
    rw [updateCand_cons, List.countP_cons, List.countP_cons, List.countP_cons]
    by_cases h : c.nid = k
    · rw [if_pos h]
      by_cases hp : p (f c) <;> by_cases hq : p c
      all_goals try simp only [h, hp, hq]
      all_goals try simp
      all_goals omega
    · rw [if_neg h]
      by_cases hq : p c
      all_goals try simp only [h, hq]
      all_goals try simp
      all_goals omega

lemma countP_nid_le_one (k : ℕ) (cs : List Candidate)
    (h : (cs.map (fun c => c.nid)).Nodup) :
    cs.countP (fun c => decide (c.nid = k)) ≤ 1 := by
  induction cs with
  | nil => simp
  | cons c cs ih =>
    simp only [List.map_cons, List.nodup_cons] at h
    by_cases hc : c.nid = k
    · rw [List.countP_cons_of_pos _ _ (by simpa using hc)]
      have hz : cs.countP (fun c => decide (c.nid = k)) = 0 := by
        rw [List.countP_eq_zero]
        intro a ha hak
        simp only [decide_eq_true_eq] at hak
        exact h.1 (by rw [hc, ← hak]; exact List.mem_map_of_mem (fun c => c.nid) ha)
      omega
    · rw [List.countP_cons_of_neg _ _ (by simpa using hc)]
      exact ih h.2

lemma countP_updateCand_of_false (p : Candidate → Bool) (k : ℕ)
    (f : Candidate → Candidate) (hf : ∀ x, p (f x) = false)
    (cs : List Candidate) :
    (updateCand k f cs).countP p ≤ cs.countP p := by
  induction cs with
  | nil => simp [updateCand]
  | cons c cs ih =>
    rw [updateCand_cons]
    by_cases h : c.nid = k
    · rw [if_pos h, List.countP_cons_of_neg _ _ (by simp [hf]), List.countP_cons]
      split_ifs <;> omega
    · rw [if_neg h, List.countP_cons, List.countP_cons]
      by_cases hq : p c <;> omega

lemma countP_updateCand_succ_le (p : Candidate → Bool) (k : ℕ)
    (f : Candidate → Candidate) (hf : ∀ x, p (f x) = false)
    (cs : List Candidate) (c : Candidate) (hc : c ∈ cs) (hk : c.nid = k)
    (hp : p c = true) :
    (updateCand k f cs).countP p + 1 ≤ cs.countP p := by
  induction cs with
  | nil => cases hc
  | cons a cs ih =>
    rw [updateCand_cons]
    rcases List.mem_cons.mp hc with rfl | hmem
    · rw [if_pos hk, List.countP_cons_of_neg _ _ (by simp [hf]),
        List.countP_cons_of_pos _ _ (by simp [hp])]
      have h2 := countP_updateCand_of_false p k f hf cs
      omega
    · have := ih hmem
      by_cases h : a.nid = k
      · rw [if_pos h, List.countP_cons_of_neg _ _ (by simp [hf]), List.countP_cons]
        split_ifs <;> omega
      · rw [if_neg h, List.countP_cons, List.countP_cons]
        by_cases hq : p a <;> omega

/-- Candidate updates of the cascade never touch the primary key or
the queue position. -/
def fieldPreserving (g : Candidate → Candidate) : Prop :=
  ∀ x, (g x).nid = x.nid ∧ (g x).priorityOrder = x.priorityOrder

lemma fieldPreserving_id : fieldPreserving id := fun _ => ⟨rfl, rfl⟩

lemma fieldPreserving_comp {g₁ g₂ : Candidate → Candidate}
    (h₁ : fieldPreserving g₁) (h₂ : fieldPreserving g₂) :
    fieldPreserving (g₂ ∘ g₁) := by
  intro x
  exact ⟨((h₂ (g₁ x)).1).trans (h₁ x).1, ((h₂ (g₁ x)).2).trans (h₁ x).2⟩

lemma fieldPreserving_updateFun (k : ℕ) (f : Candidate → Candidate)
    (hf : fieldPreserving f) :
    fieldPreserving (fun c => if c.nid = k then f c else c) := by
  intro x
  by_cases h : x.nid = k <;> simp [h, hf x]

lemma updateCand_eq_map (k : ℕ) (f : Candidate → Candidate)
    (cs : List Candidate) :
    updateCand k f cs = cs.map (fun c => if c.nid = k then f c else c) := rfl

lemma map_field_of_fieldPreserving {β : Type} (sel : Candidate → β)
    (hsel : ∀ g x, fieldPreserving g → sel (g x) = sel x)
    (g : Candidate → Candidate) (hg : fieldPreserving g)
    (cs : List Candidate) :
    (cs.map g).map sel = cs.map sel := by
  rw [List.map_map]
  exact List.map_congr_left fun c _ => hsel g c hg

lemma findCand_mem {nid : ℕ} {cs : List Candidate} {c : Candidate}
    (h : findCand nid cs = some c) : c ∈ cs :=
  List.mem_of_find?_eq_some h

lemma findCand_nid {nid : ℕ} {cs : List Candidate} {c : Candidate}
    (h : findCand nid cs = some c) : c.nid = nid := by
  have := List.find?_some h
  simpa using this

lemma pickMinPrio_mem (b : Candidate) (l : List Candidate) :
    pickMinPrio b l = b ∨ pickMinPrio b l ∈ l := by
  induction l generalizing b with
  | nil => exact Or.inl rfl
  | cons x xs ih =>
    rw [pickMinPrio, List.foldl_cons]
    rcases ih (if x.priorityOrder < b.priorityOrder then x else b) with h | h
    · rw [pickMinPrio] at h
      rw [h]
      by_cases hx : x.priorityOrder < b.priorityOrder
      · rw [if_pos hx]; exact Or.inr (List.mem_cons_self x xs)
      · rw [if_neg hx]; exact Or.inl rfl
    · rw [pickMinPrio] at h
      exact Or.inr (List.mem_cons_of_mem x h)

lemma pickMinPrio_le (b : Candidate) (l : List Candidate) :
    (pickMinPrio b l).priorityOrder ≤ b.priorityOrder ∧
      ∀ x ∈ l, (pickMinPrio b l).priorityOrder ≤ x.priorityOrder := by
  induction l generalizing b with
  | nil => exact ⟨le_refl _, by simp⟩
  | cons x xs ih =>
    rw [pickMinPrio, List.foldl_cons]
    have ih2 := ih (if x.priorityOrder < b.priorityOrder then x else b)
    rw [pickMinPrio] at ih2
    constructor
    · refine le_trans ih2.1 ?_
      by_cases hx : x.priorityOrder < b.priorityOrder
      · rw [if_pos hx]; exact le_of_lt hx
      · rw [if_neg hx]
    · intro y hy
      rcases List.mem_cons.mp hy with rfl | hmem
      · refine le_trans ih2.1 ?_
        by_cases hx : y.priorityOrder < b.priorityOrder
        · rw [if_pos hx]
        · rw [if_neg hx]; omega
      · exact ih2.2 y hmem

lemma nextPendingCand_some {cs : List Candidate} {n : Candidate}
    (h : nextPendingCand cs = some n) :
    n ∈ cs ∧ n.status = .pending ∧ n.isNotified = false ∧
      ∀ x ∈ cs, x.status = .pending → x.isNotified = false →
        n.priorityOrder ≤ x.priorityOrder := by
  rw [nextPendingCand] at h
  set fl := cs.filter (fun c => decide (c.status = .pending) && !c.isNotified) with hfl
  cases hcase : fl with
  | nil => rw [hcase] at h; cases h
  | cons c rest =>
    rw [hcase] at h
    have hn : n = pickMinPrio c rest := by
      simpa using h.symm
    have hmemfl : n ∈ fl := by
      rw [hcase]
      rcases pickMinPrio_mem c rest with h1 | h1
      · rw [hn, h1]; exact List.mem_cons_self c rest
      · rw [hn]; exact List.mem_cons_of_mem c h1
    have hpred := List.of_mem_filter (by rw [hfl] at hmemfl; exact hmemfl)
    simp only [Bool.and_eq_true, decide_eq_true_eq, Bool.not_eq_true'] at hpred
    refine ⟨List.mem_of_mem_filter (by rw [hfl] at hmemfl; exact hmemfl),
      hpred.1, hpred.2, ?_⟩
    intro x hx hxs hxn
    have hxfl : x ∈ fl := by
      rw [hfl]
      exact List.mem_filter.mpr ⟨hx, by simp [hxs, hxn]⟩
    rw [hcase] at hxfl
    have := pickMinPrio_le c rest
    rcases List.mem_cons.mp hxfl with rfl | hmem
    · rw [hn]; exact this.1
    · rw [hn]; exact this.2 x hmem

lemma nextPendingCand_none {cs : List Candidate}
    (h : nextPendingCand cs = none) :
    ∀ x ∈ cs, ¬(x.status = .pending ∧ x.isNotified = false) := by
  rw [nextPendingCand] at h
  cases hcase : cs.filter (fun c => decide (c.status = .pending) && !c.isNotified) with
  | nil =>
    intro x hx hcontra
    have : x ∈ cs.filter (fun c => decide (c.status = .pending) && !c.isNotified) :=
      List.mem_filter.mpr ⟨hx, by simp [hcontra.1, hcontra.2]⟩
    rw [hcase] at this
    cases this
  | cons c rest => rw [hcase] at h; cases h

lemma markNotified_fieldPreserving (now : ℤ) :
    fieldPreserving (markNotified now) := fun _ => ⟨rfl, rfl⟩

lemma notify_first_donor_shape (s : CascadeState) (now : ℤ) :
    ∃ g, fieldPreserving g ∧
      (notify_first_donor s now).1.candidates = s.candidates.map g := by
  rw [notify_first_donor]
  split_ifs with hacc
  · exact ⟨id, fieldPreserving_id, (List.map_id _).symm⟩
  · cases hnext : nextPendingCand s.candidates with
    | none =>
      simp only [hnext]
      exact ⟨id, fieldPreserving_id, (List.map_id _).symm⟩
    | some c =>
      simp only [hnext]
      exact ⟨fun x => if x.nid = c.nid then markNotified now x else x,
        fieldPreserving_updateFun _ _ (markNotified_fieldPreserving now), rfl⟩

lemma check_donor_response_shape (s : CascadeState) (nid : ℕ) (now : ℤ) :
    ∃ g, fieldPreserving g ∧
      (check_donor_response s nid now).1.candidates = s.candidates.map g := by
  rw [check_donor_response]
  cases hfind : findCand nid s.candidates with
  | none =>
    simp only [hfind]
    exact ⟨id, fieldPreserving_id, (List.map_id _).symm⟩
  | some c =>
    simp only [hfind]
    split_ifs with h1 h2
    · exact ⟨id, fieldPreserving_id, (List.map_id _).symm⟩
    · cases hnext : nextPendingCand (cancelTimedOut nid s.candidates) with
      | none =>
        simp only [hnext]
        exact ⟨fun x => if x.nid = nid then
            { x with status := .cancelled, responseNotes := timeoutNote } else x,
          fieldPreserving_updateFun _ _ (fun _ => ⟨rfl, rfl⟩), rfl⟩
      | some n =>
        simp only [hnext]
        refine ⟨(fun x => if x.nid = n.nid then markNotified now x else x) ∘
          (fun x => if x.nid = nid then
            { x with status := .cancelled, responseNotes := timeoutNote } else x),
          fieldPreserving_comp (fieldPreserving_updateFun _ _ (fun _ => ⟨rfl, rfl⟩))
            (fieldPreserving_updateFun _ _ (markNotified_fieldPreserving now)), ?_⟩
        rw [cancelTimedOut, updateCand_eq_map, updateCand_eq_map, List.map_map]
    · exact ⟨id, fieldPreserving_id, (List.map_id _).symm⟩

lemma accept_blood_request_shape (s : CascadeState) (nid : ℕ)
    (today now : ℤ) (notes : String) :
    ∃ g, fieldPreserving g ∧
      (accept_blood_request s nid today now notes).1.candidates =
        s.candidates.map g := by
  rw [accept_blood_request]
  cases hfind : findCand nid s.candidates with
  | none =>
    simp only [hfind]
    exact ⟨id, fieldPreserving_id, (List.map_id _).symm⟩
  | some c =>
    simp only [hfind]
    split_ifs with h1
    · exact ⟨id, fieldPreserving_id, (List.map_id _).symm⟩
    · refine ⟨(fun x => if x.nid ≠ nid ∧ (x.status = .pending ∨ x.status = .notified)
          then { x with status := .cancelled } else x) ∘
        (fun x => if x.nid = nid then acceptWrite today now notes x else x),
        fieldPreserving_comp (fieldPreserving_updateFun _ _ (fun _ => ⟨rfl, rfl⟩)) ?_, ?_⟩
      · intro x
        by_cases h : x.nid ≠ nid ∧ (x.status = .pending ∨ x.status = .notified) <;>
          simp [h]
      · rw [cancelOthers, updateCand_eq_map, List.map_map]

lemma reject_blood_request_shape (s : CascadeState) (nid : ℕ)
    (now : ℤ) (reason : String) :
    ∃ g, fieldPreserving g ∧
      (reject_blood_request s nid now reason).1.candidates =
        s.candidates.map g := by
  rw [reject_blood_request]
  cases hfind : findCand nid s.candidates with
  | none =>
    simp only [hfind]
    exact ⟨id, fieldPreserving_id, (List.map_id _).symm⟩
  | some c =>
    simp only [hfind]
    split_ifs with h1
    · exact ⟨id, fieldPreserving_id, (List.map_id _).symm⟩
    · exact ⟨fun x => if x.nid = nid then
          { x with status := .rejected, respondedAt := some now,
                   responseNotes := reason, responded := true } else x,
        fieldPreserving_updateFun _ _ (fun _ => ⟨rfl, rfl⟩), rfl⟩

lemma reachable_maps {q0 s : CascadeState} (h : Reachable q0 s) :
    s.candidates.map (fun c => c.nid) = q0.candidates.map (fun c => c.nid) ∧
      s.candidates.map (fun c => c.priorityOrder) =
        q0.candidates.map (fun c => c.priorityOrder) := by
  induction h with
  | start => exact ⟨rfl, rfl⟩
  | activate now =>
    obtain ⟨g, hg, hc⟩ := notify_first_donor_shape q0 now
    rw [hc]
    exact ⟨map_field_of_fieldPreserving _ (fun g x hg => (hg x).1) g hg _,
      map_field_of_fieldPreserving _ (fun g x hg => (hg x).2) g hg _⟩
  | timeout s nid now _ ih =>
    obtain ⟨g, hg, hc⟩ := check_donor_response_shape s nid now
    rw [hc]
    rw [map_field_of_fieldPreserving _ (fun g x hg => (hg x).1) g hg _,
      map_field_of_fieldPreserving _ (fun g x hg => (hg x).2) g hg _]
    exact ih
  | accept s nid today now notes _ ih =>
    obtain ⟨g, hg, hc⟩ := accept_blood_request_shape s nid today now notes
    rw [hc]
    rw [map_field_of_fieldPreserving _ (fun g x hg => (hg x).1) g hg _,
      map_field_of_fieldPreserving _ (fun g x hg => (hg x).2) g hg _]
    exact ih
  | reject s nid now reason _ ih =>
    obtain ⟨g, hg, hc⟩ := reject_blood_request_shape s nid now reason
    rw [hc]
    rw [map_field_of_fieldPreserving _ (fun g x hg => (hg x).1) g hg _,
      map_field_of_fieldPreserving _ (fun g x hg => (hg x).2) g hg _]
    exact ih

lemma notifiedCount_all_pending {s : CascadeState}
    (hall : ∀ c ∈ s.candidates, c.status = .pending) : notifiedCount s = 0 := by
  rw [notifiedCount, List.countP_eq_zero]
  intro a ha h
  simp only [decide_eq_true_eq] at h
  rw [hall a ha] at h
  exact NStatus.noConfusion h

lemma nodup_nid_shape {cs : List Candidate} {g : Candidate → Candidate}
    (hg : fieldPreserving g)
    (h : (cs.map fun c => c.nid).Nodup) :
    ((cs.map g).map fun c => c.nid).Nodup := by
  rw [map_field_of_fieldPreserving _ (fun g x hg => (hg x).1) g hg]
  exact h

lemma notify_first_donor_count {s : CascadeState} (now : ℤ)
    (hall : ∀ c ∈ s.candidates, c.status = .pending)
    (hnd : (s.candidates.map fun c => c.nid).Nodup) :
    notifiedCount (notify_first_donor s now).1 ≤ 1 := by
  have hz : notifiedCount s = 0 := notifiedCount_all_pending hall
  rw [notify_first_donor]
  split_ifs with hacc
  · simp [hz]
  · cases hnext : nextPendingCand s.candidates with
    | none => simp [hz]
    | some c =>
      simp only [hnext]
      rw [notifiedCount] at hz ⊢
      have h1 := countP_updateCand_le (fun c => decide (c.status = .notified))
        c.nid (markNotified now) s.candidates
      have h2 := countP_nid_le_one c.nid s.candidates hnd
      simp only at h1 h2 ⊢
      omega

lemma check_donor_response_count {s : CascadeState} (nid : ℕ) (now : ℤ)
    (hnd : (s.candidates.map fun c => c.nid).Nodup)
    (hc : notifiedCount s ≤ 1) :
    notifiedCount (check_donor_response s nid now).1 ≤ 1 := by
  rw [check_donor_response]
  cases hfind : findCand nid s.candidates with
  | none => simpa using hc
  | some c =>
    simp only [hfind]
    split_ifs with h1 h2
    · simpa using hc
    · have hdrop := countP_updateCand_succ_le
        (fun c => decide (c.status = .notified)) nid
        (fun x => { x with status := .cancelled, responseNotes := timeoutNote })
        (fun x => by simp) s.candidates c (findCand_mem hfind)
        (findCand_nid hfind) (by simp [h2])
      have hz1 : (cancelTimedOut nid s.candidates).countP
          (fun c => decide (c.status = .notified)) = 0 := by
        rw [notifiedCount] at hc
        rw [cancelTimedOut]
        omega
      have hnd1 : ((cancelTimedOut nid s.candidates).map fun c => c.nid).Nodup := by
        rw [cancelTimedOut, updateCand_eq_map]
        exact nodup_nid_shape
          (fieldPreserving_updateFun _ _ (fun _ => ⟨rfl, rfl⟩)) hnd
      cases hnext : nextPendingCand (cancelTimedOut nid s.candidates) with
      | none =>
        simp only [hnext, notifiedCount]
        omega
      | some n =>
        simp only [hnext, notifiedCount]
        have h3 := countP_updateCand_le (fun c => decide (c.status = .notified))
          n.nid (markNotified now) (cancelTimedOut nid s.candidates)
        have h4 := countP_nid_le_one n.nid _ hnd1
        omega
    · simpa using hc

lemma countP_notified_after_accept (nid : ℕ) (today now : ℤ) (notes : String)
    (cs : List Candidate) :
    (cancelOthers nid (updateCand nid (acceptWrite today now notes) cs)).countP
      (fun c => decide (c.status = .notified)) = 0 := by
  rw [List.countP_eq_zero]
  intro a ha hnot
  simp only [decide_eq_true_eq] at hnot
  rw [cancelOthers] at ha
  obtain ⟨b, hb, rfl⟩ := List.mem_map.mp ha
  rw [updateCand_eq_map] at hb
  obtain ⟨d, _, rfl⟩ := List.mem_map.mp hb
  by_cases hd : d.nid = nid
  · rw [if_pos hd] at hnot
    rw [if_neg (fun h => h.1 hd)] at hnot
    simp [acceptWrite] at hnot
  · rw [if_neg hd] at hnot
    by_cases hcond : d.nid ≠ nid ∧ (d.status = .pending ∨ d.status = .notified)
    · rw [if_pos hcond] at hnot
      simp at hnot
    · rw [if_neg hcond] at hnot
      push_neg at hcond
      exact (hcond hd).2 hnot

lemma accept_blood_request_count {s : CascadeState} (nid : ℕ)
    (today now : ℤ) (notes : String) (hc : notifiedCount s ≤ 1) :
    notifiedCount (accept_blood_request s nid today now notes).1 ≤ 1 := by
  rw [accept_blood_request]
  cases hfind : findCand nid s.candidates with
  | none => simpa using hc
  | some c =>
    simp only [hfind]
    split_ifs with h1
    · simpa using hc
    · have haux := countP_notified_after_accept nid today now notes s.candidates
      show (cancelOthers nid
        (updateCand nid (acceptWrite today now notes) s.candidates)).countP
          (fun c => decide (c.status = .notified)) ≤ 1
      omega

lemma reject_blood_request_count {s : CascadeState} (nid : ℕ) (now : ℤ)
    (reason : String) (hc : notifiedCount s ≤ 1) :
    notifiedCount (reject_blood_request s nid now reason).1 ≤ 1 := by
  rw [reject_blood_request]
  cases hfind : findCand nid s.candidates with
  | none => simpa using hc
  | some c =>
    simp only [hfind]
    split_ifs with h1
    · simpa using hc
    · have h2 := countP_updateCand_of_false
        (fun c => decide (c.status = .notified)) nid
        (fun x => { x with status := .rejected, respondedAt := some now,
                           responseNotes := reason, responded := true })
        (fun x => by simp) s.candidates
      rw [notifiedCount] at hc ⊢
      simp only
      omega

lemma cascade_inv {q0 s : CascadeState}
    (hall : ∀ c ∈ q0.candidates, c.status = .pending)
    (hnd : (q0.candidates.map fun c => c.nid).Nodup)
    (hr : Reachable q0 s) :
    (s.candidates.map fun c => c.nid).Nodup ∧ notifiedCount s ≤ 1 := by
  induction hr with
  | start =>
    exact ⟨hnd, by rw [notifiedCount_all_pending hall]; omega⟩
  | activate now =>
    obtain ⟨g, hg, hcg⟩ := notify_first_donor_shape q0 now
    refine ⟨by rw [hcg]; exact nodup_nid_shape hg hnd, ?_⟩
    exact notify_first_donor_count now hall hnd
  | timeout s nid now _ ih =>
    obtain ⟨g, hg, hcg⟩ := check_donor_response_shape s nid now
    exact ⟨by rw [hcg]; exact nodup_nid_shape hg ih.1,
      check_donor_response_count nid now ih.1 ih.2⟩
  | accept s nid today now notes _ ih =>
    obtain ⟨g, hg, hcg⟩ := accept_blood_request_shape s nid today now notes
    exact ⟨by rw [hcg]; exact nodup_nid_shape hg ih.1,
      accept_blood_request_count nid today now notes ih.2⟩
  | reject s nid now reason _ ih =>
    obtain ⟨g, hg, hcg⟩ := reject_blood_request_shape s nid now reason
    exact ⟨by rw [hcg]; exact nodup_nid_shape hg ih.1,
      reject_blood_request_count nid now reason ih.2⟩

/-- C1: in every state reachable by the cascade operations (initial
activation, timeout handling, accept, reject) from a freshly
materialized queue (all candidates `pending`, distinct row ids), at
most one candidate of the request is in `notified` state. -/
theorem claim_C1_single_flight (q0 s : CascadeState)
    (hall : ∀ c ∈ q0.candidates, c.status = .pending)
    (hnd : (q0.candidates.map fun c => c.nid).Nodup)
    (hr : Reachable q0 s) :
    notifiedCount s ≤ 1 :=
  (cascade_inv hall hnd hr).2

/-- Example donor counters for concrete runs of the cascade. -/
def donorStatsEx : DonorStats :=
  { donationCount := 0, historyCount := 0, lastDonationDate := none, points := 0 }

/-- Example pending candidate with the given id and priority. -/
def candEx (n : ℕ) (po : ℤ) : Candidate :=
  { nid := n, status := .pending, isNotified := false, priorityOrder := po,
    notifiedAt := none, respondedAt := none, responded := false,
    responseNotes := "", donor := donorStatsEx }

/-- Example three-candidate queue state. -/
def q0Ex : CascadeState := initState [candEx 1 1, candEx 2 2, candEx 3 3]

/-- Witness for C1: a concrete three-candidate queue driven through
activation and then a timeout still has at most one notified
candidate. -/
theorem claim_C1_single_flight_witness :
    notifiedCount (check_donor_response (notify_first_donor q0Ex 0).1 1 30).1 ≤ 1 :=
  claim_C1_single_flight q0Ex _ (by decide) (by decide)
    (Reachable.timeout _ 1 30 (Reachable.activate 0))

/-- C2: accepting a `notified` candidate makes it `accepted`, makes
the request `fulfilled`, cancels every sibling still `pending` or
`notified` (leaving all other siblings untouched), creates exactly
one donation record, and updates the donor counters:
`donation_count` becomes the new history count, `last_donation_date`
becomes today, and 50 points are awarded. -/
theorem claim_C2_accept_effects (s : CascadeState) (nid : ℕ)
    (today now : ℤ) (notes : String) (c : Candidate)
    (hfind : findCand nid s.candidates = some c)
    (hst : c.status = .notified) :
    (accept_blood_request s nid today now notes).1.reqStatus = .fulfilled ∧
    (accept_blood_request s nid today now notes).1.donationRecords =
      s.donationRecords + 1 ∧
    List.Forall₂ (fun c₀ c₁ : Candidate =>
        c₁.nid = c₀.nid ∧
        (c₀.nid = nid →
          c₁.status = .accepted ∧
          c₁.donor.donationCount = c₀.donor.historyCount + 1 ∧
          c₁.donor.lastDonationDate = some today ∧
          c₁.donor.points = c₀.donor.points + 50) ∧
        (c₀.nid ≠ nid →
          ((c₀.status = .pending ∨ c₀.status = .notified) →
            c₁.status = .cancelled) ∧
          (¬(c₀.status = .pending ∨ c₀.status = .notified) → c₁ = c₀)))
      s.candidates (accept_blood_request s nid today now notes).1.candidates := by
  rw [accept_blood_request]
  rw [hfind]
  simp only
  split_ifs with h1
  · exact absurd hst h1
  · refine ⟨rfl, rfl, ?_⟩
    rw [cancelOthers, updateCand_eq_map, List.map_map]
    rw [List.forall₂_map_right_iff]
    rw [List.forall₂_same]
    intro d _
    by_cases hd : d.nid = nid
    · simp only [Function.comp, if_pos hd]
      rw [if_neg (fun h => h.1 hd)]
      refine ⟨rfl, fun _ => ⟨rfl, rfl, rfl, rfl⟩, fun hcon => absurd hd hcon⟩
    · simp only [Function.comp, if_neg hd]
      by_cases hcond : d.nid ≠ nid ∧ (d.status = .pending ∨ d.status = .notified)
      · rw [if_pos hcond]
        exact ⟨rfl, fun h => absurd h hd,
          fun _ => ⟨fun _ => rfl, fun hn => absurd hcond.2 hn⟩⟩
      · rw [if_neg hcond]
        push_neg at hcond
        exact ⟨rfl, fun h => absurd h hd,
          fun _ => ⟨fun hpn => (hpn.elim (hcond hd).1 (hcond hd).2).elim,
            fun _ => rfl⟩⟩

/-- Example state for the accept scenario: A(prio 1, pending),
B(prio 2, notified), C(prio 3, pending). -/
def acceptEx : CascadeState :=
  initState [candEx 1 1,
    { candEx 2 2 with status := .notified, isNotified := true,
                      notifiedAt := some 0 },
    candEx 3 3]

/-- Witness for C2: accepting the notified middle candidate of the
concrete scenario has all the claimed effects. -/
theorem claim_C2_accept_effects_witness :
    (accept_blood_request acceptEx 2 100 101 "ok").1.reqStatus = .fulfilled ∧
    (accept_blood_request acceptEx 2 100 101 "ok").1.donationRecords =
      acceptEx.donationRecords + 1 ∧
    List.Forall₂ (fun c₀ c₁ : Candidate =>
        c₁.nid = c₀.nid ∧
        (c₀.nid = 2 →
          c₁.status = .accepted ∧
          c₁.donor.donationCount = c₀.donor.historyCount + 1 ∧
          c₁.donor.lastDonationDate = some 100 ∧
          c₁.donor.points = c₀.donor.points + 50) ∧
        (c₀.nid ≠ 2 →
          ((c₀.status = .pending ∨ c₀.status = .notified) →
            c₁.status = .cancelled) ∧
          (¬(c₀.status = .pending ∨ c₀.status = .notified) → c₁ = c₀)))
      acceptEx.candidates (accept_blood_request acceptEx 2 100 101 "ok").1.candidates :=
  claim_C2_accept_effects acceptEx 2 100 101 "ok"
    { candEx 2 2 with status := .notified, isNotified := true,
                      notifiedAt := some 0 } (by decide) (by decide)

/-- Example state for the reject scenario: candidate 1 notified,
candidate 2 pending next in line. -/
def rejectEx : CascadeState :=
  initState [{ candEx 1 1 with status := .notified, isNotified := true,
                               notifiedAt := some 0 },
             candEx 2 2]

/-- Counterexample to C3: in a concrete state with candidate 1
`notified` and candidate 2 `pending`, rejecting candidate 1 leaves
no candidate in `notified` state - candidate 2 is not activated, so
the cascade does not advance on reject. -/
theorem claim_C3_counterexample :
    (reject_blood_request rejectEx 1 5 "busy").1.candidates.countP
        (fun c => decide (c.status = .notified)) = 0 ∧
    findCand 2 (reject_blood_request rejectEx 1 5 "busy").1.candidates =
      some (candEx 2 2) := by decide

/-- C3 as amended: rejecting a `notified` candidate marks it
`rejected` with the response recorded, leaves every other candidate
(and the request status and donation records) unchanged - in
particular it does not activate the next `pending` candidate - and
issues an admin rejection notification together with a declined
`DonorResponse` row; advancement is left to the admin or the pending
timeout. -/
theorem claim_C3_amended (s : CascadeState) (nid : ℕ) (now : ℤ)
    (reason : String) (c : Candidate)
    (hfind : findCand nid s.candidates = some c)
    (hst : c.status = .notified) :
    (reject_blood_request s nid now reason).1.reqStatus = s.reqStatus ∧
    (reject_blood_request s nid now reason).1.donationRecords =
      s.donationRecords ∧
    (reject_blood_request s nid now reason).1.responses =
      s.responses ++ [(nid, .declined)] ∧
    (reject_blood_request s nid now reason).1.adminAlerts =
      s.adminAlerts ++ [.donorRejected] ∧
    List.Forall₂ (fun c₀ c₁ : Candidate =>
        (c₀.nid = nid →
          c₁.status = .rejected ∧ c₁.responseNotes = reason ∧
          c₁.responded = true) ∧
        (c₀.nid ≠ nid → c₁ = c₀))
      s.candidates (reject_blood_request s nid now reason).1.candidates := by
  rw [reject_blood_request, hfind]
  simp only
  split_ifs with h1
  · exact absurd hst h1
  · refine ⟨rfl, rfl, rfl, rfl, ?_⟩
    rw [updateCand_eq_map]
    rw [List.forall₂_map_right_iff, List.forall₂_same]
    intro d _
    by_cases hd : d.nid = nid
    · rw [if_pos hd]
      exact ⟨fun _ => ⟨rfl, rfl, rfl⟩, fun hcon => absurd hd hcon⟩
    · rw [if_neg hd]
      exact ⟨fun h => absurd h hd, fun _ => rfl⟩

/-- Witness for the amended C3 on the concrete reject scenario. -/
theorem claim_C3_amended_witness :
    (reject_blood_request rejectEx 1 5 "travelling").1.reqStatus =
      rejectEx.reqStatus ∧
    (reject_blood_request rejectEx 1 5 "travelling").1.donationRecords =
      rejectEx.donationRecords ∧
    (reject_blood_request rejectEx 1 5 "travelling").1.responses =
      rejectEx.responses ++ [(1, .declined)] ∧
    (reject_blood_request rejectEx 1 5 "travelling").1.adminAlerts =
      rejectEx.adminAlerts ++ [.donorRejected] ∧
    List.Forall₂ (fun c₀ c₁ : Candidate =>
        (c₀.nid = 1 →
          c₁.status = .rejected ∧ c₁.responseNotes = "travelling" ∧
          c₁.responded = true) ∧
        (c₀.nid ≠ 1 → c₁ = c₀))
      rejectEx.candidates (reject_blood_request rejectEx 1 5 "travelling").1.candidates :=
  claim_C3_amended rejectEx 1 5 "travelling"
    { candEx 1 1 with status := .notified, isNotified := true,
                      notifiedAt := some 0 } (by decide) (by decide)

lemma cancelTimedOut_nid {nid : ℕ} {cs : List Candidate} :
    ∀ x ∈ cancelTimedOut nid cs, x.nid = nid →
      x.status = .cancelled ∧ x.responseNotes = timeoutNote := by
  intro x hx hxn
  rw [cancelTimedOut, updateCand_eq_map] at hx
  obtain ⟨d, _, rfl⟩ := List.mem_map.mp hx
  by_cases hd : d.nid = nid
  · rw [if_pos hd]
    exact ⟨rfl, rfl⟩
  · rw [if_neg hd] at hxn ⊢
    exact absurd hxn hd

lemma nextPendingCand_cancelTimedOut_ne {nid : ℕ} {cs : List Candidate}
    {n : Candidate} (h : nextPendingCand (cancelTimedOut nid cs) = some n) :
    n.nid ≠ nid := by
  intro hcon
  have hspec := nextPendingCand_some h
  have := (cancelTimedOut_nid n hspec.1 hcon).1
  rw [hspec.2.1] at this
  exact NStatus.noConfusion this

/-- C4: when the response timer fires on a still-`notified`
candidate, that candidate becomes `cancelled` carrying the timed-out
annotation (`timeoutNote`; a donor decline instead yields status
`rejected`, so the two outcomes stay distinguishable); the `pending`
candidate of lowest `priority_order` is activated next; and when no
`pending` candidate remains the queue keeps only the cancellation,
an admin-escalation notification is issued, and the request status
is not transitioned. -/
theorem claim_C4_timeout_advance (s : CascadeState) (nid : ℕ) (now : ℤ)
    (c : Candidate)
    (hfind : findCand nid s.candidates = some c)
    (hst : c.status = .notified)
    (hpend : ∀ x ∈ s.candidates, x.status = .pending → x.isNotified = false) :
    (∀ x ∈ (check_donor_response s nid now).1.candidates,
        x.nid = nid → x.status = .cancelled ∧ x.responseNotes = timeoutNote) ∧
    (∀ n, nextPendingCand (cancelTimedOut nid s.candidates) = some n →
        n.status = .pending ∧
        (∀ x ∈ cancelTimedOut nid s.candidates, x.status = .pending →
            n.priorityOrder ≤ x.priorityOrder) ∧
        (∀ x ∈ (check_donor_response s nid now).1.candidates,
            x.nid = n.nid → x.status = .notified) ∧
        (check_donor_response s nid now).1.adminAlerts =
          s.adminAlerts ++ [.timeoutAdvanced]) ∧
    (nextPendingCand (cancelTimedOut nid s.candidates) = none →
        (check_donor_response s nid now).1.candidates =
          cancelTimedOut nid s.candidates ∧
        (check_donor_response s nid now).1.adminAlerts =
          s.adminAlerts ++ [.noDonorsEscalation] ∧
        (check_donor_response s nid now).1.reqStatus = s.reqStatus) := by
  have hnotacc : ¬(c.status = .accepted ∨ c.status = .rejected) := by
    rw [hst]; rintro (h | h) <;> exact NStatus.noConfusion h
  rw [check_donor_response, hfind]
  simp only
  rw [if_neg hnotacc, if_pos hst]
  cases hnext : nextPendingCand (cancelTimedOut nid s.candidates) with
  | none =>
    refine ⟨fun x hx hxn => cancelTimedOut_nid x hx hxn, ?_, fun _ => ⟨rfl, rfl, rfl⟩⟩
    intro n hn
    exact Option.noConfusion hn
  | some n =>
    have hne := nextPendingCand_cancelTimedOut_ne hnext
    have hspec := nextPendingCand_some hnext
    dsimp only
    refine ⟨?_, ?_, ?_⟩
    · intro x hx hxn
      rw [updateCand_eq_map] at hx
      obtain ⟨d, hd, rfl⟩ := List.mem_map.mp hx
      by_cases hdn : d.nid = n.nid
      · rw [if_pos hdn] at hxn ⊢
        exact absurd (hdn.symm.trans hxn) hne
      · rw [if_neg hdn] at hxn ⊢
        exact cancelTimedOut_nid d hd hxn
    · intro m hm
      injection hm with hm
      subst hm
      refine ⟨hspec.2.1, ?_, ?_, rfl⟩
      · intro x hx hxs
        have hxn : x.isNotified = false := by
          rw [cancelTimedOut, updateCand_eq_map] at hx
          obtain ⟨d, hd, rfl⟩ := List.mem_map.mp hx
          by_cases hdd : d.nid = nid
          · rw [if_pos hdd] at hxs
            exact NStatus.noConfusion hxs
          · rw [if_neg hdd] at hxs ⊢
            exact hpend d hd hxs
        exact hspec.2.2.2 x hx hxs hxn
      · intro x hx hxn
        rw [updateCand_eq_map] at hx
        obtain ⟨d, _, rfl⟩ := List.mem_map.mp hx
        by_cases hdn : d.nid = n.nid
        · rw [if_pos hdn]
          rfl
        · rw [if_neg hdn] at hxn
          exact absurd hxn hdn
    · intro hcon
      exact Option.noConfusion hcon

/-- Example state for the timeout scenario: candidate 1 notified,
candidates 2 and 3 pending. -/
def timeoutEx : CascadeState :=
  initState [{ candEx 1 1 with status := .notified, isNotified := true,
                               notifiedAt := some 0 },
             candEx 2 2, candEx 3 3]

/-- Witness for C4: timing out the notified candidate of the
concrete scenario advances to candidate 2 (lowest remaining
priority) and issues the timeout-advance admin notification. -/
theorem claim_C4_timeout_advance_witness :
    (check_donor_response timeoutEx 1 40).1.adminAlerts =
      timeoutEx.adminAlerts ++ [.timeoutAdvanced] :=
  ((claim_C4_timeout_advance timeoutEx 1 40
      { candEx 1 1 with status := .notified, isNotified := true,
                        notifiedAt := some 0 }
      (by decide) (by decide) (by decide)).2.1
    (candEx 2 2) (by decide)).2.2.2

lemma findCand_map_preserve (nid : ℕ) (G : Candidate → Candidate)
    (hG : ∀ x, (G x).nid = x.nid) (cs : List Candidate) :
    findCand nid (cs.map G) = (findCand nid cs).map G := by
  have hp : ((fun c => decide (c.nid = nid)) ∘ G) =
      (fun c : Candidate => decide (c.nid = nid)) := by
    funext x
    simp [Function.comp, hG]
  rw [findCand, findCand, List.find?_map, hp]

/-- C5: a response or timeout event on a candidate that is not in
`notified` state is a no-op with an informational outcome (state
unchanged, no exception); in particular after an accept, a second
call with reject reports the notification as no longer active
(carrying the `accepted` status whose message is the
already-accepted warning) and the candidate stays `accepted`. -/
theorem claim_C5_idempotent_double_response (s : CascadeState) (nid : ℕ)
    (today now now2 : ℤ) (notes reason : String) (c : Candidate)
    (hfind : findCand nid s.candidates = some c) :
    (c.status ≠ .notified →
      accept_blood_request s nid today now notes = (s, .notActive c.status) ∧
      reject_blood_request s nid now reason = (s, .notActive c.status) ∧
      (check_donor_response s nid now).1 = s) ∧
    (c.status = .notified →
      reject_blood_request (accept_blood_request s nid today now notes).1
          nid now2 reason =
        ((accept_blood_request s nid today now notes).1, .notActive .accepted) ∧
      findCand nid (accept_blood_request s nid today now notes).1.candidates =
        some (acceptWrite today now notes c) ∧
      (acceptWrite today now notes c).status = .accepted) := by
  refine ⟨?_, ?_⟩
  · intro h
    refine ⟨?_, ?_, ?_⟩
    · rw [accept_blood_request, hfind]
      simp only
      rw [if_pos h]
    · rw [reject_blood_request, hfind]
      simp only
      rw [if_pos h]
    · rw [check_donor_response, hfind]
      simp only
      by_cases h1 : c.status = .accepted ∨ c.status = .rejected
      · rw [if_pos h1]
      · rw [if_neg h1, if_neg h]
  · intro h
    have hnid := findCand_nid hfind
    have hG : ∀ x : Candidate,
        (((fun x => if x.nid ≠ nid ∧ (x.status = .pending ∨ x.status = .notified)
            then { x with status := .cancelled } else x) ∘
          (fun x => if x.nid = nid then acceptWrite today now notes x else x)) x).nid
          = x.nid := by
      intro x
      simp only [Function.comp]
      split_ifs <;> rfl
    have hcand : (accept_blood_request s nid today now notes).1.candidates =
        s.candidates.map
          ((fun x => if x.nid ≠ nid ∧ (x.status = .pending ∨ x.status = .notified)
              then { x with status := .cancelled } else x) ∘
           (fun x => if x.nid = nid then acceptWrite today now notes x else x)) := by
      rw [accept_blood_request, hfind]
      simp only
      rw [if_neg (fun hne => hne h)]
      rw [cancelOthers, updateCand_eq_map, List.map_map]
    have hfound : findCand nid
        (accept_blood_request s nid today now notes).1.candidates =
        some (acceptWrite today now notes c) := by
      rw [hcand, findCand_map_preserve _ _ hG, hfind]
      simp only [Option.map]
      congr 1
      simp only [Function.comp]
      rw [if_pos hnid, if_neg (fun hcon => hcon.1 hnid)]
    refine ⟨?_, hfound, rfl⟩
    rw [reject_blood_request, hfound]
    simp only
    have hne2 : (acceptWrite today now notes c).status ≠ NStatus.notified := by
      intro hcon
      exact NStatus.noConfusion hcon
    rw [if_pos hne2]
    rfl

/-- Witness for C5 on the concrete accept scenario: accepting
candidate 2 and then rejecting it reports the not-active outcome and
leaves the candidate accepted. -/
theorem claim_C5_idempotent_double_response_witness :
    reject_blood_request (accept_blood_request acceptEx 2 100 101 "ok").1
        2 102 "oops" =
      ((accept_blood_request acceptEx 2 100 101 "ok").1, .notActive .accepted) ∧
    findCand 2 (accept_blood_request acceptEx 2 100 101 "ok").1.candidates =
      some (acceptWrite 100 101 "ok"
        { candEx 2 2 with status := .notified, isNotified := true,
                          notifiedAt := some 0 }) :=
  have hmain := (claim_C5_idempotent_double_response acceptEx 2 100 101 102
    "ok" "oops"
    { candEx 2 2 with status := .notified, isNotified := true,
                      notifiedAt := some 0 } (by decide)).2 (by decide)
  ⟨hmain.1, hmain.2.1⟩

lemma buildCandidateQueue_prio (donors : List DonorStats) :
    (buildCandidateQueue donors).map (fun c => c.priorityOrder) =
      (List.range donors.length).map (fun i : ℕ => (i : ℤ) + 1) := by
  rw [buildCandidateQueue, List.map_map, List.enum_eq_zip_range]
  have hlen : (List.range donors.length).length = donors.length := by simp
  calc ((List.range donors.length).zip donors).map
        ((fun c => c.priorityOrder) ∘ fun p =>
          ({ nid := p.1, status := .pending, isNotified := false,
             priorityOrder := (p.1 : ℤ) + 1, notifiedAt := none,
             respondedAt := none, responded := false, responseNotes := "",
             donor := p.2 } : Candidate))
      = ((List.range donors.length).zip donors).map
          ((fun i : ℕ => (i : ℤ) + 1) ∘ Prod.fst) := by
        exact List.map_congr_left fun p _ => rfl
    _ = (((List.range donors.length).zip donors).map Prod.fst).map
          (fun i : ℕ => (i : ℤ) + 1) := by rw [List.map_map]
    _ = (List.range donors.length).map (fun i : ℕ => (i : ℤ) + 1) := by
        rw [List.map_fst_zip _ _ (le_of_eq hlen)]

/-- C6: from a queue materialized by `buildCandidateQueue` (the
spec-modelled materialization step), in every reachable cascade
state the `priority_order` values of the candidates are exactly the
1-based ascending sequence - in particular pairwise distinct and
strictly increasing in queue order. -/
theorem claim_C6_priority_orders (donors : List DonorStats)
    (s : CascadeState)
    (hr : Reachable (initState (buildCandidateQueue donors)) s) :
    s.candidates.map (fun c => c.priorityOrder) =
      (List.range donors.length).map (fun i : ℕ => (i : ℤ) + 1) ∧
    (s.candidates.map (fun c => c.priorityOrder)).Pairwise (· < ·) := by
  have hmap := (reachable_maps hr).2
  rw [initState] at hmap
  simp only at hmap
  rw [hmap, buildCandidateQueue_prio]
  refine ⟨rfl, ?_⟩
  rw [List.pairwise_map]
  exact (List.pairwise_lt_range donors.length).imp
    (fun hij => by omega)

/-- Witness for C6: a concrete two-donor queue, activated and then
rejected, keeps priority orders `[1, 2]`. -/
theorem claim_C6_priority_orders_witness :
    (reject_blood_request
        (notify_first_donor (initState (buildCandidateQueue
          [donorStatsEx, donorStatsEx])) 0).1 0 7 "no").1.candidates.map
      (fun c => c.priorityOrder) =
      (List.range 2).map (fun i : ℕ => (i : ℤ) + 1) ∧
    ((reject_blood_request
        (notify_first_donor (initState (buildCandidateQueue
          [donorStatsEx, donorStatsEx])) 0).1 0 7 "no").1.candidates.map
      (fun c => c.priorityOrder)).Pairwise (· < ·) :=
  claim_C6_priority_orders [donorStatsEx, donorStatsEx] _
    (Reachable.reject _ 0 7 "no" (Reachable.activate 0))

lemma sqDist_nonneg (a b : Crit) : 0 ≤ sqDist a b := by
  rw [sqDist]
  positivity

lemma topsisScore_bounds (sqrtF : ℚ → ℚ)
    (hs : ∀ x : ℚ, 0 ≤ x → 0 ≤ sqrtF x) (ideal negIdeal w : Crit) :
    0 ≤ topsisScore sqrtF ideal negIdeal w ∧
      topsisScore sqrtF ideal negIdeal w ≤ 1 := by
  rw [topsisScore]
  have hdp : 0 ≤ sqrtF (sqDist w ideal) := hs _ (sqDist_nonneg w ideal)
  have hdn : 0 ≤ sqrtF (sqDist w negIdeal) := hs _ (sqDist_nonneg w negIdeal)
  split_ifs with hpos
  · constructor
    · exact div_nonneg hdn (le_of_lt hpos)
    · rw [div_le_one hpos]
      linarith
  · norm_num

lemma mcdmScored_bounds (sqrtF : ℚ → ℚ)
    (hs : ∀ x : ℚ, 0 ≤ x → 0 ≤ sqrtF x) (today : ℤ)
    (distances : ℕ → Option ℚ) (required : BloodType) (ds : List MDonor) :
    ∀ p ∈ mcdmScored sqrtF today distances required ds,
      0 ≤ p.2 ∧ p.2 ≤ 1 := by
  intro p hp
  rw [mcdmScored] at hp
  have hmem := (List.of_mem_zip hp).2
  obtain ⟨w, _, hw⟩ := List.mem_map.mp hmem
  rw [← hw]
  exact topsisScore_bounds sqrtF hs _ _ w

lemma mcdmScored_length (sqrtF : ℚ → ℚ) (today : ℤ)
    (distances : ℕ → Option ℚ) (required : BloodType) (ds : List MDonor) :
    (mcdmScored sqrtF today distances required ds).length = ds.length := by
  unfold mcdmScored mcdmWeighted applyWeights colNormalize
  simp

/-- C7: the donor ranker returns `[]` on an empty list; returns the
single donor with score `1.0` on a singleton (before any matrix is
built); and on every nonempty input every returned score lies in
`[0, 1]`, the output is sorted non-increasing by score, and the sort
is stable: any two scored pairs whose input order already agrees
with the non-increasing order (in particular any tie) keep their
relative order in the output.  All of this holds for every model
`sqrtF` of `np.sqrt` that maps nonnegatives to nonnegatives. -/
theorem claim_C7_ranker_bounds_sorted (sqrtF : ℚ → ℚ)
    (hs : ∀ x : ℚ, 0 ≤ x → 0 ≤ sqrtF x) (today : ℤ) (hLat hLon : ℚ)
    (distances : ℕ → Option ℚ) (required : BloodType) :
    rank_donors_mcdm sqrtF today hLat hLon distances required [] = [] ∧
    (∀ d, rank_donors_mcdm sqrtF today hLat hLon distances required [d] =
      [(d, 1)]) ∧
    (∀ donors, donors ≠ [] →
      (∀ p ∈ rank_donors_mcdm sqrtF today hLat hLon distances required donors,
        0 ≤ p.2 ∧ p.2 ≤ 1) ∧
      (rank_donors_mcdm sqrtF today hLat hLon distances required donors).Sorted
        (fun a b => b.2 ≤ a.2) ∧
      (∀ p q : MDonor × ℚ,
        List.Sublist [p, q] (mcdmScored sqrtF today distances required donors) →
        q.2 ≤ p.2 →
        List.Sublist [p, q] (rank_donors_mcdm sqrtF today hLat hLon distances
          required donors))) := by
  refine ⟨rfl, fun d => rfl, ?_⟩
  intro donors hne
  cases donors with
  | nil => exact absurd rfl hne
  | cons d tail =>
    cases tail with
    | nil =>
      refine ⟨?_, List.sorted_singleton _, ?_⟩
      · intro p hp
        rw [show rank_donors_mcdm sqrtF today hLat hLon distances required [d]
            = [(d, 1)] from rfl] at hp
        rcases List.mem_singleton.mp hp with rfl
        constructor <;> norm_num
      · intro p q hsub _
        have hlen := hsub.length_le
        rw [mcdmScored_length] at hlen
        simp at hlen
    | cons d2 tail2 =>
      haveI : IsTotal (MDonor × ℚ) (fun a b => b.2 ≤ a.2) :=
        ⟨fun a b => le_total b.2 a.2⟩
      haveI : IsTrans (MDonor × ℚ) (fun a b => b.2 ≤ a.2) :=
        ⟨fun a b c h1 h2 => le_trans h2 h1⟩
      have hred : rank_donors_mcdm sqrtF today hLat hLon distances required
          (d :: d2 :: tail2) =
          (mcdmScored sqrtF today distances required
            (d :: d2 :: tail2)).insertionSort (fun a b => b.2 ≤ a.2) := rfl
      refine ⟨?_, ?_, ?_⟩
      · intro p hp
        rw [hred] at hp
        rw [List.mem_insertionSort] at hp
        exact mcdmScored_bounds sqrtF hs today distances required _ p hp
      · rw [hred]
        exact List.sorted_insertionSort _ _
      · intro p q hsub hle
        rw [hred]
        exact List.pair_sublist_insertionSort hle hsub

/-- Example donors for a concrete ranker run. -/
def mdonorEx1 : MDonor :=
  { id := 1, bloodType := .Opos, donationCount := 2, lastDonationDate := some 0 }

/-- Second example donor. -/
def mdonorEx2 : MDonor :=
  { id := 2, bloodType := .Apos, donationCount := 0, lastDonationDate := none }

/-- Witness for C7: with the identity as the square-root model, an
empty list ranks to `[]`, a singleton ranks to score one, and the
two-donor output is sorted non-increasing by score. -/
theorem claim_C7_ranker_bounds_sorted_witness :
    rank_donors_mcdm id 100 0 0 (fun _ => none) .Apos [] = [] ∧
    rank_donors_mcdm id 100 0 0 (fun _ => none) .Apos [mdonorEx1] =
      [(mdonorEx1, 1)] ∧
    (rank_donors_mcdm id 100 0 0 (fun _ => none) .Apos
      [mdonorEx1, mdonorEx2]).Sorted (fun a b => b.2 ≤ a.2) :=
  have h := claim_C7_ranker_bounds_sorted id (fun x hx => hx) 100 0 0
    (fun _ => none) .Apos
  ⟨h.1, h.2.1 mdonorEx1,
    (h.2.2 [mdonorEx1, mdonorEx2] (by simp)).2.1⟩

/-- C8: a donor who donated 10 days ago is ineligible whatever the
other fields, the distance function and the radius; a donor who
donated 91 days ago passes the cooldown gate (which requires at
least 90 elapsed days); and an incompatible blood type is ineligible
for every distance function - in particular at distance zero. -/
theorem claim_C8_eligibility_gates (hav : ℚ → ℚ → ℚ → ℚ → ℚ)
    (hasDeclined : Bool) (today : ℤ) (donor : EDonor) (req : ERequest)
    (maxDistance : ℚ) (ld : ℤ) :
    (donor.lastDonationDate = some ld → today - ld = 10 →
      (is_donor_eligible hav hasDeclined today donor req maxDistance).1 =
        false) ∧
    (today - ld = 91 → cooldownBlocked today (some ld) = false) ∧
    (is_compatible donor.bloodType req.bloodType = false →
      (is_donor_eligible hav hasDeclined today donor req maxDistance).1 =
        false) := by
  refine ⟨?_, ?_, ?_⟩
  · intro hld h10
    rw [is_donor_eligible, hld]
    cases hA : donor.isAvailable
    · simp
    · have h90 : cooldownBlocked today (some ld) = true := by
        rw [cooldownBlocked]
        simp only [decide_eq_true_eq]
        omega
      simp [h90]
  · intro h91
    rw [cooldownBlocked]
    simp only [decide_eq_false_iff_not]
    omega
  · intro hic
    rw [is_donor_eligible]
    cases hA : donor.isAvailable
    · simp
    · cases hCB : cooldownBlocked today donor.lastDonationDate
      · simp [hic, hCB]
      · simp [hCB]

/-- Example eligible-looking donor with a 10-day-old donation. -/
def edonorEx : EDonor :=
  { isAvailable := true, lastDonationDate := some 90, bloodType := .Opos,
    latitude := some 1, longitude := some 1 }

/-- Example request for the eligibility checks. -/
def ereqEx : ERequest :=
  { bloodType := .Apos, hospital := { latitude := some 1, longitude := some 1 } }

/-- Witness for C8 at concrete inputs: a 10-day-old donation blocks
eligibility, a 91-day-old donation passes the cooldown gate, and an
incompatible donor (AB+ for an A+ request) is refused even when the
distance function is constantly zero. -/
theorem claim_C8_eligibility_gates_witness :
    (is_donor_eligible (fun _ _ _ _ => 0) false 100 edonorEx ereqEx 25).1 =
      false ∧
    cooldownBlocked 100 (some 9) = false ∧
    (is_donor_eligible (fun _ _ _ _ => 0) false 100
      { edonorEx with bloodType := .ABpos, lastDonationDate := none }
      ereqEx 25).1 = false :=
  ⟨(claim_C8_eligibility_gates (fun _ _ _ _ => 0) false 100 edonorEx ereqEx
      25 90).1 (by decide) (by decide),
   (claim_C8_eligibility_gates (fun _ _ _ _ => 0) false 100 edonorEx ereqEx
      25 9).2.1 (by decide),
   (claim_C8_eligibility_gates (fun _ _ _ _ => 0) false 100
      { edonorEx with bloodType := .ABpos, lastDonationDate := none }
      ereqEx 25 0).2.2 (by decide)⟩

lemma round1_add_int (x : ℚ) (n : ℤ) : round1 (x + n) = round1 x + n := by
  rw [round1, round1]
  have h : 10 * (x + (n : ℚ)) = 10 * x + ((10 * n : ℤ) : ℚ) := by
    push_cast
    ring
  rw [h, round_add_int]
  push_cast
  ring

lemma units_shift (urg : Urgency) (createdAt now : ℚ) (bt : BloodType) :
    compositeScore (PRequest.mk urg createdAt 5 bt) now =
      compositeScore (PRequest.mk urg createdAt 2 bt) now + 12 := by
  rw [compositeScore, compositeScore]
  simp only
  rw [show calculate_units_score 5 = 100 by rw [calculate_units_score]; norm_num,
    show calculate_units_score 2 = 40 by
      rw [calculate_units_score]
      norm_num]
  ring

lemma urgency_shift (units : ℤ) (createdAt now : ℚ) (bt : BloodType) :
    compositeScore (PRequest.mk .critical createdAt units bt) now =
      compositeScore (PRequest.mk .normal createdAt units bt) now + 24 := by
  rw [compositeScore, compositeScore]
  simp only [calculate_urgency_score]
  ring

/-- C9: raising `units_needed` from 2 to 5 with every other field
fixed never decreases the rounded composite priority score, and a
`critical` request always scores strictly higher than the otherwise
identical `normal` request. -/
theorem claim_C9_priority_monotone (urg : Urgency) (createdAt now : ℚ)
    (bt : BloodType) (units : ℤ) :
    priorityScoreOf (PRequest.mk urg createdAt 2 bt) now ≤
      priorityScoreOf (PRequest.mk urg createdAt 5 bt) now ∧
    priorityScoreOf (PRequest.mk .normal createdAt units bt) now <
      priorityScoreOf (PRequest.mk .critical createdAt units bt) now := by
  constructor
  · rw [priorityScoreOf, priorityScoreOf, units_shift]
    rw [show (12 : ℚ) = ((12 : ℤ) : ℚ) by norm_num, round1_add_int]
    have h12 : (0 : ℚ) ≤ ((12 : ℤ) : ℚ) := by norm_num
    linarith
  · rw [priorityScoreOf, priorityScoreOf, urgency_shift]
    rw [show (24 : ℚ) = ((24 : ℤ) : ℚ) by norm_num, round1_add_int]
    have h24 : (0 : ℚ) < ((24 : ℤ) : ℚ) := by norm_num
    linarith

/-- C10: when every gate before the distance check passes and any of
the four coordinates is missing or exactly zero (Python falsiness),
the distance gate is skipped entirely: the donor is eligible with
the distance annotation set to null, for every distance function and
every radius, however small.  The `truthy` characterization ties the
guard to exactly the none-or-zero coordinates. -/
theorem claim_C10_zero_coordinate_skip (hav : ℚ → ℚ → ℚ → ℚ → ℚ)
    (today : ℤ) (donor : EDonor) (req : ERequest) (maxDistance : ℚ)
    (hA : donor.isAvailable = true)
    (hCB : cooldownBlocked today donor.lastDonationDate = false)
    (hC : is_compatible donor.bloodType req.bloodType = true)
    (hmiss : truthy donor.latitude = false ∨ truthy donor.longitude = false ∨
      truthy req.hospital.latitude = false ∨
      truthy req.hospital.longitude = false) :
    is_donor_eligible hav false today donor req maxDistance =
      (true, some none) ∧
    (∀ x : Option ℚ, truthy x = false ↔ (x = none ∨ x = some 0)) := by
  constructor
  · rw [is_donor_eligible]
    have hguard : (truthy donor.latitude && truthy donor.longitude &&
        truthy req.hospital.latitude && truthy req.hospital.longitude) = false := by
      rcases hmiss with h | h | h | h <;> simp [h]
    rw [hA, hCB, hC, hguard]
    simp
  · intro x
    cases x with
    | none => simp [truthy]
    | some q =>
      rw [truthy]
      constructor
      · intro hq
        simp only [Option.getD] at hq
        right
        simp only [decide_eq_false_iff_not, not_not] at hq
        rw [hq]
      · rintro (h | h)
        · exact Option.noConfusion h
        · injection h with h
          simp [h]

/-- Witness for C10: a donor whose longitude is exactly zero passes
with a null annotated distance even when the distance function is
constantly huge and the radius is tiny. -/
theorem claim_C10_zero_coordinate_skip_witness :
    is_donor_eligible (fun _ _ _ _ => 100000) false 100
      { isAvailable := true, lastDonationDate := none, bloodType := .Oneg,
        latitude := some 27, longitude := some 0 }
      ereqEx (1 / 1000) = (true, some none) :=
  (claim_C10_zero_coordinate_skip (fun _ _ _ _ => 100000) 100
    { isAvailable := true, lastDonationDate := none, bloodType := .Oneg,
      latitude := some 27, longitude := some 0 }
    ereqEx (1 / 1000) (by decide) (by decide) (by decide)
    (by right; left; decide)).1
